import Mathlib

/-!
Verification of the PersonalAssistant state engine (src/app.py).

The Python module is a single-file Streamlit assistant.  The definitions
below are a shallow embedding of its pure state logic:

* file-backed stores become explicit values threaded through the
  functions (`AppState`, `Option WeeklyData`, `Option EnergyStore`, ...);
* `datetime.now()` and its derived values (`get_today`, `get_week_number`,
  the `%H:%M` timestamps, the fresh task ids built from timestamps) become
  explicit parameters (`today`, `currentWeek`, `time`, `newId`);
* the journal file for today is modelled as the list of entries appended
  to it (the timestamp/header decoration added by `append_journal` does
  not affect any claim);
* the regex scan of `process_ai_actions`
  (pattern `\[ACTION:(\w+):(\w+):([^\]]+)\]`, `re.findall` + `re.sub`)
  becomes an explicit left-to-right scanner (`scanActions`); the pattern
  is deterministic (no backtracking changes the match), so greedy
  `\w+` / `[^\]]+` runs are `takeWhile` runs;
* dates are `%Y-%m-%d` strings except in the streak tracker, where
  `datetime` arithmetic matters: there a point in time is a pair
  `(day : Nat, sec : Nat)` of a day number and seconds since midnight,
  and `timedelta.days` is floor division (`Int.fdiv`) by 86400.
-/

namespace PersonalAssistant

/-- A task record as built by `add_task` (src/app.py lines 132-147).
One-off tasks carry `status`/`completed`; recurring ones (habits) carry
`completions`. -/
structure Task where
  id : String
  task : String
  category : String
  status : String
  created : String
  completed : Option String := none
  recurring : Bool := false
  completions : List String := []
deriving DecidableEq

/-- A weekly goal record as built by `add_weekly_goal` (lines 83-93). -/
structure Goal where
  id : String
  goal : String
  category : String
  completed : Bool
  created : String
  completed_date : Option String := none
deriving DecidableEq

/-- The contents of `weekly_goals.json`: a week key and the active goal
list (lines 67-78). -/
structure WeeklyData where
  week : String
  goals : List Goal
deriving DecidableEq

/-- One energy reading as appended by `log_energy` (lines 201-208). -/
structure EnergyEntry where
  time : String
  level : String
  note : String
deriving DecidableEq

/-- The contents of `energy.json`: an insertion-ordered map from date to
the day's readings (a Python dict, modelled as an association list). -/
abbrev EnergyStore := List (String × List EnergyEntry)

/-- The stores touched by the action dispatcher, plus today's journal
modelled as the list of entries appended to it.  `weekly` and `energy`
are `Option` because their files may not exist yet. -/
structure AppState where
  tasks : List Task
  recurring : List Task
  weekly : Option WeeklyData
  energy : Option EnergyStore
  journal : List String
deriving DecidableEq

/-- The contents of `streak.json` (lines 262-289).  Dates are day
numbers; `last_checkin` is `none` when the stored value is JSON null. -/
structure Streak where
  current : Nat
  longest : Nat
  last_checkin : Option Nat
  start_date : Nat
  total_days : Nat
deriving DecidableEq

/-! ### String helpers (Python `str.lower`, `str.upper`, `in`, `str.strip`) -/

/-- Python `s.lower()` (ASCII case folding suffices for every claim). -/
def lower (s : String) : String := String.mk (s.data.map Char.toLower)

/-- Python `s.upper()`. -/
def upper (s : String) : String := String.mk (s.data.map Char.toUpper)

/-- Python `needle in hay` on lists of characters: some suffix of `hay`
starts with `needle`. -/
def isSubstrL (needle : List Char) : List Char → Bool
  | [] => needle.isEmpty
  | c :: cs => needle.isPrefixOf (c :: cs) || isSubstrL needle cs

/-- Python `needle in hay` for strings. -/
def isSubstr (needle hay : String) : Bool := isSubstrL needle.data hay.data

/-- Python `str.strip()` on a character list: drop whitespace from both
ends. -/
def stripChars (l : List Char) : List Char :=
  ((l.dropWhile Char.isWhitespace).reverse.dropWhile Char.isWhitespace).reverse

/-- Python `s.strip()`. -/
def pyStrip (s : String) : String := String.mk (stripChars s.data)

/-! ### Task store (src/app.py lines 121-193) -/

/-- `add_task` (lines 132-147): build a fresh todo record and append it
to the recurring list or the one-off list. -/
def add_task (newId taskText cat today : String) (is_recurring : Bool)
    (tasks recurring : List Task) : List Task × List Task :=
  let t : Task := { id := newId, task := taskText, category := cat, status := "todo",
                    created := today, completed := none, recurring := is_recurring,
                    completions := [] }
  if is_recurring then (tasks, recurring ++ [t]) else (tasks ++ [t], recurring)

/-- `complete_task` (lines 149-162): find the first record with the given
id; for a recurring task append today to its completions, otherwise set
status done and stamp the completion date.  The Python loop `break`s
after the first id match. -/
def complete_task (today : String) (is_recurring : Bool) (taskId : String) :
    List Task → List Task
  | [] => []
  | t :: rest =>
    if t.id = taskId then
      (if is_recurring then { t with completions := t.completions ++ [today] }
       else { t with status := "done", completed := some today }) :: rest
    else t :: complete_task today is_recurring taskId rest

/-- The guard of `complete_task_by_name` (line 169): the task is open and
its lowercased text contains the (already lowercased) needle. -/
def openMatch (needleLower : String) (t : Task) : Bool :=
  (t.status == "todo") && isSubstr needleLower (lower t.task)

/-- Loop body of `complete_task_by_name` (lines 168-174): walk the
one-off task list; at the first open task whose text contains the needle,
mark it done and return its text; otherwise return the list unchanged and
`none`. -/
def complete_by_name_go (today needleLower : String) :
    List Task → List Task × Option String
  | [] => ([], none)
  | t :: rest =>
    if openMatch needleLower t then
      ({ t with status := "done", completed := some today } :: rest, some t.task)
    else
      let p := complete_by_name_go today needleLower rest
      (t :: p.1, p.2)

/-- `complete_task_by_name` (lines 164-174).  Only `data["tasks"]` is
searched; the weekly-goal store is never consulted. -/
def complete_task_by_name (today : String) (tasks : List Task) (taskName : String) :
    List Task × Option String :=
  complete_by_name_go today (lower taskName) tasks

/-- `delete_task` (lines 176-180): drop every record with the given id. -/
def delete_task (taskId : String) (ts : List Task) : List Task :=
  ts.filter (fun t => t.id != taskId)

/-! ### Weekly goal store (src/app.py lines 66-119) -/

/-- The Markdown summary string built by `archive_weekly_goals`
(lines 103-112). -/
def archive_summary (data : WeeklyData) : String :=
  let completed := data.goals.filter (fun g => g.completed)
  let incomplete := data.goals.filter (fun g => !g.completed)
  "## 📅 Week " ++ data.week ++ " Summary\n\n"
    ++ "**Completed (" ++ toString completed.length ++ "):**\n"
    ++ String.join (completed.map (fun g => "- ✅ " ++ g.goal ++ "\n"))
    ++ "\n**Not completed (" ++ toString incomplete.length ++ "):**\n"
    ++ String.join (incomplete.map (fun g => "- ❌ " ++ g.goal ++ "\n"))

/-- `archive_weekly_goals` (lines 103-113): append the summary to today's
journal. -/
def archive_weekly_goals (data : WeeklyData) (journal : List String) : List String :=
  journal ++ [archive_summary data]

/-- `read_weekly_goals` (lines 67-78) as a pure transition: given the
current week key, the stored file contents (or `none` when the file does
not exist) and today's journal, return the data handed to the caller, the
new file contents and the new journal.  A stale store is archived first
when its goal list is non-empty, then replaced by an empty set for the
current week. -/
def read_weekly_goals (currentWeek : String) (store : Option WeeklyData)
    (journal : List String) : WeeklyData × Option WeeklyData × List String :=
  match store with
  | none =>
    let d : WeeklyData := { week := currentWeek, goals := [] }
    (d, some d, journal)
  | some data =>
    if data.week ≠ currentWeek then
      let journal2 := if data.goals ≠ [] then archive_weekly_goals data journal else journal
      let d : WeeklyData := { week := currentWeek, goals := [] }
      (d, some d, journal2)
    else (data, some data, journal)

/-- `add_weekly_goal` (lines 83-93): read (possibly rolling the week
over), append a fresh incomplete goal, save. -/
def add_weekly_goal (currentWeek today newId goalText cat : String)
    (store : Option WeeklyData) (journal : List String) :
    Option WeeklyData × List String :=
  let r := read_weekly_goals currentWeek store journal
  let g : Goal := { id := newId, goal := goalText, category := cat,
                    completed := false, created := today, completed_date := none }
  (some { r.1 with goals := r.1.goals ++ [g] }, r.2.2)

/-! ### Energy log store (src/app.py lines 195-215) -/

/-- `read_energy` (lines 196-199): a missing file reads as the empty
dict. -/
def read_energy (store : Option EnergyStore) : EnergyStore := store.getD []

/-- `data.get(day, [])` on the energy dict. -/
def getDay (data : EnergyStore) (day : String) : List EnergyEntry :=
  match data.find? (fun p => p.1 == day) with
  | some p => p.2
  | none => []

/-- Update the value under a key of the energy dict, keeping insertion
order; a missing key is appended at the end (Python
`data[today] = []` on a fresh key). -/
def setDay (day : String) (entries : List EnergyEntry) : EnergyStore → EnergyStore
  | [] => [(day, entries)]
  | p :: rest => if p.1 == day then (day, entries) :: rest else p :: setDay day entries rest

/-- `log_energy` (lines 201-208): append a reading under today's key. -/
def log_energy (today time level note : String) (store : Option EnergyStore) :
    EnergyStore :=
  let data := read_energy store
  setDay today (getDay data today ++ [{ time := time, level := level, note := note }]) data

/-- `get_latest_energy` (lines 210-215): the last of today's readings,
`none` when there are none. -/
def get_latest_energy (today : String) (store : Option EnergyStore) :
    Option EnergyEntry :=
  (getDay (read_energy store) today).getLast?

/-! ### Streak tracker (src/app.py lines 262-289) -/

/-- `update_streak` (lines 268-289).  `today` is today's day number and
`sec` the seconds already elapsed today; the stored check-in date parses
to midnight of its day, so `(datetime.now() - last).days` is
`Int.fdiv (today * 86400 + sec - last * 86400) 86400`
(`timedelta.days` floors). -/
def update_streak (today sec : Nat) (s : Streak) : Streak :=
  if s.last_checkin = some today then s
  else
    match s.last_checkin with
    | some last =>
      if Int.fdiv (((today : Int) * 86400 + (sec : Int)) - (last : Int) * 86400) 86400 = 1 then
        { s with current := s.current + 1, total_days := s.total_days + 1,
                 longest := if s.current + 1 > s.longest then s.current + 1 else s.longest,
                 last_checkin := some today }
      else if Int.fdiv (((today : Int) * 86400 + (sec : Int)) - (last : Int) * 86400) 86400 > 1 then
        { s with current := 1, total_days := s.total_days + 1, last_checkin := some today }
      else { s with last_checkin := some today }
    | none => { s with current := 1, total_days := 1, last_checkin := some today }

/-! ### Action protocol parser (src/app.py lines 292-341)

The regex `\[ACTION:(\w+):(\w+):([^\]]+)\]` is deterministic: each
greedy `\w+` run necessarily stops at a non-word character and must then
see `:`, and `[^\]]+` stops at the first `]`, which is exactly the
required closer, so no backtracking alters the match.  `re.findall` and
`re.sub` both scan left to right, restarting after each match and
advancing one character after each failure, which is what `scanActions`
does. -/

/-- Python `\w` for the inputs that occur here: alphanumeric or
underscore. -/
def isWordChar (c : Char) : Bool := c.isAlphanum || c == '_'

/-- The literal head of every directive token. -/
def actionHeader : List Char := "[ACTION:".data

/-- Try to match the directive regex at the start of `l`; on success
return the three capture groups and the remaining input after the
closing bracket. -/
def tryMatch (l : List Char) : Option (String × String × String × List Char) :=
  if actionHeader.isPrefixOf l then
    match (List.drop 8 l).dropWhile isWordChar with
    | ':' :: r3 =>
      if ((List.drop 8 l).takeWhile isWordChar).isEmpty then none
      else
        match r3.dropWhile isWordChar with
        | ':' :: r5 =>
          if (r3.takeWhile isWordChar).isEmpty then none
          else
            match r5.dropWhile (fun c => c != ']') with
            | ']' :: rest =>
              if (r5.takeWhile (fun c => c != ']')).isEmpty then none
              else some (String.mk ((List.drop 8 l).takeWhile isWordChar),
                         String.mk (r3.takeWhile isWordChar),
                         String.mk (r5.takeWhile (fun c => c != ']')), rest)
            | _ => none
        | _ => none
    | _ => none
  else none

/-- Fuelled scanner: with enough fuel this is the regex scan of the
whole input, returning the text with every match removed and the matches
in order.  Fuel only serves structural recursion; `scanActions` always
supplies enough. -/
def scanGo : Nat → List Char → List Char × List (String × String × String)
  | _, [] => ([], [])
  | 0, l => (l, [])
  | fuel + 1, c :: cs =>
    match tryMatch (c :: cs) with
    | some (a, b, ct, rest) =>
      let p := scanGo fuel rest
      (p.1, (a, b, ct) :: p.2)
    | none =>
      let p := scanGo fuel cs
      (c :: p.1, p.2)

/-- The combined effect of `re.findall(action_pattern, text)` and
`re.sub(action_pattern, '', text)`: cleaned text plus ordered matches. -/
def scanActions (l : List Char) : List Char × List (String × String × String) :=
  scanGo l.length l

/-- The character sequence of a well-formed directive token with kind
`w1`, category `w2` and content `ct`. -/
def tokenChars (w1 w2 ct : List Char) : List Char :=
  actionHeader ++ w1 ++ [':'] ++ w2 ++ [':'] ++ ct ++ [']']

/-- The character sequence of a directive token missing its third
colon-separated field: `[ACTION:w1:w2]`. -/
def malformedChars (w1 w2 : List Char) : List Char :=
  actionHeader ++ w1 ++ [':'] ++ w2 ++ [']']

/-- The character sequence of a directive token with an unterminated
bracket: `[ACTION:w1:w2:ct` with no closing `]`. -/
def unterminatedChars (w1 w2 ct : List Char) : List Char :=
  actionHeader ++ w1 ++ [':'] ++ w2 ++ [':'] ++ ct

/-! ### Action dispatcher (src/app.py lines 308-341) -/

/-- The loop body of `process_ai_actions` for one regex match
(lines 308-336): normalise the three fields, dispatch on the action
type, mutate the stores and optionally produce a confirmation string. -/
def execAction (currentWeek today time newId : String)
    (act : String × String × String) (st : AppState) : AppState × Option String :=
  let ty := upper act.1
  let cat := lower act.2.1
  let content := pyStrip act.2.2
  if ty = "TASK" then
    let p := add_task newId content cat today false st.tasks st.recurring
    ({ st with tasks := p.1, recurring := p.2 }, some ("📋 Added task: " ++ content))
  else if ty = "GOAL" then
    let p := add_weekly_goal currentWeek today newId content cat st.weekly st.journal
    ({ st with weekly := p.1, journal := p.2 }, some ("🎯 Added weekly goal: " ++ content))
  else if ty = "HABIT" then
    let p := add_task newId content cat today true st.tasks st.recurring
    ({ st with tasks := p.1, recurring := p.2 }, some ("📅 Added daily habit: " ++ content))
  else if ty = "ENERGY" then
    ({ st with energy := some (log_energy today time cat content st.energy) },
     some ("🔋 Logged energy: " ++ cat))
  else if ty = "COMPLETE" then
    let p := complete_task_by_name today st.tasks content
    ({ st with tasks := p.1 },
     match p.2 with
     | some doneText => some ("✅ Completed: " ++ doneText)
     | none => none)
  else if ty = "JOURNAL" then
    ({ st with journal := st.journal ++ ["💡 " ++ content] }, some "📝 Journaled insight")
  else (st, none)

/-- The `for` loop of `process_ai_actions` over all matches, collecting
the confirmation strings in order. -/
def execActions (currentWeek today time newId : String) :
    List (String × String × String) → AppState → AppState × List String
  | [], st => (st, [])
  | a :: rest, st =>
    let p := execAction currentWeek today time newId a st
    let q := execActions currentWeek today time newId rest p.1
    (q.1, (match p.2 with | some s => [s] | none => []) ++ q.2)

/-- `process_ai_actions` (lines 292-341): scan the response for directive
tokens, execute them in order, and return the response with the tokens
removed and stripped of surrounding whitespace, the confirmation strings,
and the mutated stores. -/
def process_ai_actions (currentWeek today time newId : String) (responseText : String)
    (st : AppState) : String × List String × AppState :=
  let scanned := scanActions responseText.data
  let ex := execActions currentWeek today time newId scanned.2 st
  (String.mk (stripChars scanned.1), ex.2, ex.1)

/-! ### Conversational turn (src/app.py lines 343-435) -/

/-- Outcome of the external model call. -/
inductive ModelCall where
  | ok (text : String)
  | err (msg : String)
deriving DecidableEq

/-- `get_ai_response` (lines 343-435).  With no API key the function
returns a fixed warning before touching any store.  Otherwise it first
assembles the prompt, and among those reads `read_weekly_goals` is the
one that can mutate state (week rollover; the embedding elides the pure
reads and the self-initialising defaults of the other stores, which do
not change observable contents).  A failing model call is caught and
surfaced as a warning carrying the detail; a successful one is parsed and
dispatched by `process_ai_actions`. -/
def get_ai_response (hasKey : Bool) (call : ModelCall)
    (currentWeek today time newId : String) (st : AppState) :
    String × List String × AppState :=
  if !hasKey then
    ("⚠️ No API key set. Add OPENAI_API_KEY to your .env file.", [], st)
  else
    let r := read_weekly_goals currentWeek st.weekly st.journal
    let st2 := { st with weekly := r.2.1, journal := r.2.2 }
    match call with
    | ModelCall.err e => ("⚠️ Error: " ++ e, [], st2)
    | ModelCall.ok raw => process_ai_actions currentWeek today time newId raw st2

/-! ### Helper lemmas -/

/-- A list that occurs as a factor of another is found by `isSubstrL`. -/
theorem isSubstrL_factor (n pre post : List Char) :
    isSubstrL n (pre ++ (n ++ post)) = true := by
  induction pre with
  | nil =>
    cases n with
    | nil =>
      cases post with
      | nil => rfl
      | cons d ds => simp [isSubstrL]
    | cons c cs =>
      have hp : (c :: cs).isPrefixOf ((c :: cs) ++ post) = true := by
        rw [List.isPrefixOf_iff_prefix]
        exact List.prefix_append _ _
      simp only [List.nil_append, List.cons_append] at hp ⊢
      simp [isSubstrL, hp]
  | cons c pr ih =>
    simp only [List.cons_append, isSubstrL]
    simp [ih]

/-- `isSubstr` finds a factor of a string. -/
theorem isSubstr_factor (n pre post : String) :
    isSubstr n (pre ++ (n ++ post)) = true := by
  unfold isSubstr
  rw [show (pre ++ (n ++ post)).data = pre.data ++ (n.data ++ post.data) by
    simp [String.data_append]]
  exact isSubstrL_factor _ _ _

/-- Factor form of `isSubstrL`, existential packaging. -/
theorem isSubstrL_infix (n hay : List Char) (h : ∃ pre post, hay = pre ++ (n ++ post)) :
    isSubstrL n hay = true := by
  obtain ⟨pre, post, rfl⟩ := h
  exact isSubstrL_factor n pre post

/-- A successful `tryMatch` consumes at least one character. -/
theorem tryMatch_rest_length {l : List Char} {a b c : String} {rest : List Char}
    (h : tryMatch l = some (a, b, c, rest)) : rest.length < l.length := by
  unfold tryMatch at h
  split at h
  case isFalse => exact absurd h (by simp)
  case isTrue hpre =>
    have h8 : 8 ≤ l.length := by
      have := (List.isPrefixOf_iff_prefix.mp hpre).length_le
      simpa [actionHeader] using this
    have hd1 : (List.dropWhile isWordChar (l.drop 8)).length ≤ l.length - 8 := by
      have := (List.dropWhile_sublist (l := l.drop 8) isWordChar).length_le
      simpa [List.length_drop] using this
    split at h
    case h_2 => exact absurd h (by simp)
    case h_1 r3 heq1 =>
      split at h
      case isTrue => exact absurd h (by simp)
      case isFalse =>
        have hr3 : r3.length + 1 ≤ l.length - 8 := by
          have := congrArg List.length heq1
          simp at this
          omega
        have hd2 : (List.dropWhile isWordChar r3).length ≤ r3.length :=
          (List.dropWhile_sublist isWordChar).length_le
        split at h
        case h_2 => exact absurd h (by simp)
        case h_1 r5 heq2 =>
          split at h
          case isTrue => exact absurd h (by simp)
          case isFalse =>
            have hr5 : r5.length + 1 ≤ r3.length := by
              have := congrArg List.length heq2
              simp at this
              omega
            have hd3 : (List.dropWhile (fun c => c != ']') r5).length ≤ r5.length :=
              (List.dropWhile_sublist _).length_le
            split at h
            case h_2 => exact absurd h (by simp)
            case h_1 rest' heq3 =>
              split at h
              case isTrue => exact absurd h (by simp)
              case isFalse =>
                have hrest : rest'.length + 1 ≤ r5.length := by
                  have := congrArg List.length heq3
                  simp at this
                  omega
                have : rest = rest' := by
                  injection h with h'
                  exact (congrArg (fun q => q.2.2.2) h').symm
                subst this
                omega

/-- `scanGo` does not depend on the fuel once the fuel covers the input
length. -/
theorem scanGo_eq_of_le (f : Nat) : ∀ (g : Nat) (l : List Char),
    l.length ≤ f → l.length ≤ g → scanGo f l = scanGo g l := by
  induction f with
  | zero =>
    intro g l hf _
    have : l = [] := by
      cases l with
      | nil => rfl
      | cons c cs => simp at hf
    subst this
    cases g <;> rfl
  | succ f ih =>
    intro g l hf hg
    cases l with
    | nil => cases g <;> rfl
    | cons c cs =>
      cases g with
      | zero => simp at hg
      | succ g =>
        simp only [scanGo]
        cases htm : tryMatch (c :: cs) with
        | some r =>
          obtain ⟨a, b, ct, rest⟩ := r
          have hr := tryMatch_rest_length htm
          simp only [List.length_cons] at hr hf hg
          simp [ih g rest (by omega) (by omega)]
        | none =>
          simp only [List.length_cons] at hf hg
          simp [ih g cs (by omega) (by omega)]

/-- Unfolding `scanActions` on the empty input. -/
theorem scanActions_nil : scanActions [] = ([], []) := rfl

/-- Unfolding `scanActions` when the regex matches at the current
position: record the match and continue after it. -/
theorem scanActions_cons_some {c : Char} {cs : List Char} {a b ct : String}
    {rest : List Char} (h : tryMatch (c :: cs) = some (a, b, ct, rest)) :
    scanActions (c :: cs) = ((scanActions rest).1, (a, b, ct) :: (scanActions rest).2) := by
  have hr := tryMatch_rest_length h
  simp only [List.length_cons] at hr
  unfold scanActions
  simp only [List.length_cons, scanGo, h]
  rw [scanGo_eq_of_le cs.length rest.length rest (by omega) (le_refl _)]

/-- Unfolding `scanActions` when the regex does not match at the current
position: keep the character and advance by one. -/
theorem scanActions_cons_none {c : Char} {cs : List Char}
    (h : tryMatch (c :: cs) = none) :
    scanActions (c :: cs) = (c :: (scanActions cs).1, (scanActions cs).2) := by
  unfold scanActions
  simp only [List.length_cons, scanGo, h]

/-- A match can only start at a literal `[`. -/
theorem tryMatch_ne_lbracket {c : Char} {cs : List Char} (h : ¬ c = '[') :
    tryMatch (c :: cs) = none := by
  unfold tryMatch
  have ha : actionHeader = '[' :: "ACTION:".data := by decide
  have : actionHeader.isPrefixOf (c :: cs) = false := by
    rw [ha, List.isPrefixOf_cons₂]
    have : ('[' == c) = false := by
      cases hb : '[' == c
      · rfl
      · exact absurd (eq_of_beq hb).symm h
    simp [this]
  simp [this]

/-- Text without `[` scans to itself with no matches. -/
theorem scanActions_no_lb (l : List Char) (h : ∀ c ∈ l, ¬ c = '[') :
    scanActions l = (l, []) := by
  induction l with
  | nil => rfl
  | cons c cs ih =>
    rw [scanActions_cons_none (tryMatch_ne_lbracket (h c (by simp)))]
    rw [ih (fun d hd => h d (by simp [hd]))]

/-- A `[`-free prefix passes through the scan untouched. -/
theorem scanActions_append_no_lb (pre rest : List Char) (h : ∀ c ∈ pre, ¬ c = '[') :
    scanActions (pre ++ rest) = (pre ++ (scanActions rest).1, (scanActions rest).2) := by
  induction pre with
  | nil => simp
  | cons c cs ih =>
    rw [List.cons_append,
        scanActions_cons_none (tryMatch_ne_lbracket (h c (by simp))),
        ih (fun d hd => h d (by simp [hd]))]
    rfl

/-- `takeWhile` over a factorisation `good ++ bad :: r`. -/
theorem takeWhile_factor (p : Char → Bool) (g : List Char) (b : Char) (r : List Char)
    (hg : ∀ c ∈ g, p c = true) (hb : p b = false) :
    (g ++ b :: r).takeWhile p = g := by
  induction g with
  | nil => simp [hb]
  | cons c cs ih =>
    rw [List.cons_append, List.takeWhile_cons_of_pos (hg c (by simp)),
        ih (fun d hd => hg d (by simp [hd]))]

/-- `dropWhile` over a factorisation `good ++ bad :: r`. -/
theorem dropWhile_factor (p : Char → Bool) (g : List Char) (b : Char) (r : List Char)
    (hg : ∀ c ∈ g, p c = true) (hb : p b = false) :
    (g ++ b :: r).dropWhile p = b :: r := by
  induction g with
  | nil => simp [hb]
  | cons c cs ih =>
    rw [List.cons_append, List.dropWhile_cons_of_pos (hg c (by simp)),
        ih (fun d hd => hg d (by simp [hd]))]

/-- A well-formed token at the head of the input matches, capturing its
three fields and consuming exactly the token. -/
theorem tryMatch_token (w1 w2 ct post : List Char)
    (hw1 : w1 ≠ []) (hw1w : ∀ c ∈ w1, isWordChar c = true)
    (hw2 : w2 ≠ []) (hw2w : ∀ c ∈ w2, isWordChar c = true)
    (hct : ct ≠ []) (hctw : ∀ c ∈ ct, ¬ c = ']') :
    tryMatch (tokenChars w1 w2 ct ++ post)
      = some (String.mk w1, String.mk w2, String.mk ct, post) := by
  have hshape : tokenChars w1 w2 ct ++ post
      = actionHeader ++ (w1 ++ ':' :: (w2 ++ ':' :: (ct ++ ']' :: post))) := by
    simp [tokenChars]
  have hw : isWordChar ':' = false := by decide
  have hbr : (']' != ']') = false := by decide
  have hctb : ∀ c ∈ ct, (c != ']') = true := by
    intro c hc
    simpa using hctw c hc
  have hdrop : (actionHeader ++ (w1 ++ ':' :: (w2 ++ ':' :: (ct ++ ']' :: post)))).drop 8
      = w1 ++ ':' :: (w2 ++ ':' :: (ct ++ ']' :: post)) :=
    List.drop_left' (by decide)
  have hw1e : w1.isEmpty = false := by
    cases w1 with
    | nil => exact absurd rfl hw1
    | cons c cs => rfl
  have hw2e : w2.isEmpty = false := by
    cases w2 with
    | nil => exact absurd rfl hw2
    | cons c cs => rfl
  have hcte : ct.isEmpty = false := by
    cases ct with
    | nil => exact absurd rfl hct
    | cons c cs => rfl
  have hpre : actionHeader.isPrefixOf (tokenChars w1 w2 ct ++ post) = true := by
    rw [hshape, List.isPrefixOf_iff_prefix]
    exact List.prefix_append _ _
  unfold tryMatch
  rw [if_pos hpre, hshape, hdrop,
      dropWhile_factor isWordChar w1 ':' _ hw1w hw,
      takeWhile_factor isWordChar w1 ':' _ hw1w hw]
  simp only [hw1e]
  rw [if_neg (by simp),
      dropWhile_factor isWordChar w2 ':' _ hw2w hw,
      takeWhile_factor isWordChar w2 ':' _ hw2w hw]
  simp only [hw2e]
  rw [if_neg (by simp),
      dropWhile_factor (fun c => c != ']') ct ']' _ hctb hbr,
      takeWhile_factor (fun c => c != ']') ct ']' _ hctb hbr]
  simp only [hcte]
  rw [if_neg (by simp)]

/-- Scanning input that starts with a well-formed token records the
match and removes exactly the token's span. -/
theorem scanActions_token (w1 w2 ct post : List Char)
    (hw1 : w1 ≠ []) (hw1w : ∀ c ∈ w1, isWordChar c = true)
    (hw2 : w2 ≠ []) (hw2w : ∀ c ∈ w2, isWordChar c = true)
    (hct : ct ≠ []) (hctw : ∀ c ∈ ct, ¬ c = ']') :
    scanActions (tokenChars w1 w2 ct ++ post)
      = ((scanActions post).1,
         (String.mk w1, String.mk w2, String.mk ct) :: (scanActions post).2) := by
  have htm := tryMatch_token w1 w2 ct post hw1 hw1w hw2 hw2w hct hctw
  have hhd : actionHeader = '[' :: "ACTION:".data := by decide
  have ht : tokenChars w1 w2 ct ++ post
      = '[' :: ("ACTION:".data ++ (w1 ++ ':' :: (w2 ++ ':' :: (ct ++ ']' :: post)))) := by
    simp [tokenChars, hhd]
  rw [ht] at htm ⊢
  exact scanActions_cons_some htm

/-- Scanning prose containing exactly one well-formed token: the token
is matched once and its span removed; the surrounding prose is kept as
is. -/
theorem scanActions_embedded (pre w1 w2 ct post : List Char)
    (hpre : ∀ c ∈ pre, ¬ c = '[') (hpost : ∀ c ∈ post, ¬ c = '[')
    (hw1 : w1 ≠ []) (hw1w : ∀ c ∈ w1, isWordChar c = true)
    (hw2 : w2 ≠ []) (hw2w : ∀ c ∈ w2, isWordChar c = true)
    (hct : ct ≠ []) (hctw : ∀ c ∈ ct, ¬ c = ']') :
    scanActions (pre ++ (tokenChars w1 w2 ct ++ post))
      = (pre ++ post, [(String.mk w1, String.mk w2, String.mk ct)]) := by
  rw [scanActions_append_no_lb pre _ hpre,
      scanActions_token w1 w2 ct post hw1 hw1w hw2 hw2w hct hctw,
      scanActions_no_lb post hpost]

/-! ### Lemmas about completion -/

/-- When `complete_by_name_go` reports no match, the task list is
unchanged. -/
theorem complete_by_name_go_none (today needleLower : String) (ts : List Task)
    (h : (complete_by_name_go today needleLower ts).2 = none) :
    (complete_by_name_go today needleLower ts).1 = ts := by
  induction ts with
  | nil => rfl
  | cons t rest ih =>
    by_cases hm : openMatch needleLower t
    · simp [complete_by_name_go, hm] at h
    · simp only [complete_by_name_go, if_neg hm] at h ⊢
      rw [ih h]

/-- When no task in the list is an open match, `complete_by_name_go`
leaves the list unchanged and reports no match. -/
theorem complete_by_name_go_no_match (today needleLower : String) (ts : List Task)
    (h : ∀ t ∈ ts, openMatch needleLower t = false) :
    complete_by_name_go today needleLower ts = (ts, none) := by
  induction ts with
  | nil => rfl
  | cons t rest ih =>
    rw [complete_by_name_go, if_neg (by simp [h t (by simp)]),
        ih (fun u hu => h u (by simp [hu]))]

/-- `complete_by_name_go` marks exactly the first open matching task done
and returns its text. -/
theorem complete_by_name_go_first (today needleLower : String)
    (pre : List Task) (t : Task) (post : List Task)
    (hpre : ∀ u ∈ pre, openMatch needleLower u = false)
    (ht : openMatch needleLower t = true) :
    complete_by_name_go today needleLower (pre ++ t :: post)
      = (pre ++ { t with status := "done", completed := some today } :: post,
         some t.task) := by
  induction pre with
  | nil => simp [complete_by_name_go, ht]
  | cons u us ih =>
    rw [List.cons_append, complete_by_name_go, if_neg (by simp [hpre u (by simp)]),
        ih (fun v hv => hpre v (by simp [hv]))]
    rfl

/-- `complete_task` on a habit touches only the first task carrying the
given id, appending today to its completions. -/
theorem complete_task_rec_first (today : String)
    (pre : List Task) (t : Task) (post : List Task)
    (hpre : ∀ u ∈ pre, ¬ u.id = t.id) :
    complete_task today true t.id (pre ++ t :: post)
      = pre ++ { t with completions := t.completions ++ [today] } :: post := by
  induction pre with
  | nil => simp [complete_task]
  | cons u us ih =>
    rw [List.cons_append, complete_task.eq_def]
    simp only [if_neg (hpre u (by simp))]
    rw [ih (fun v hv => hpre v (by simp [hv]))]
    rfl

/-! ### Arithmetic and strip lemmas -/

/-- `timedelta.days` of "now minus midnight of a stored date" is the
calendar-day difference: the floor division by 86400 ignores the
time-of-day remainder. -/
theorem fdiv_day (d : Int) (s : Nat) (hs : s < 86400) :
    Int.fdiv (d * 86400 + (s : Int)) 86400 = d := by
  rw [Int.fdiv_eq_ediv _ (by norm_num), Int.add_comm,
      Int.add_mul_ediv_right _ _ (by norm_num)]
  rw [Int.ediv_eq_zero_of_lt (by positivity) (by exact_mod_cast hs)]
  simp

/-- Stripping does nothing to text that starts with `[` and ends with
`]`. -/
theorem stripChars_bracketed (xs : List Char) :
    stripChars ('[' :: xs ++ [']']) = '[' :: xs ++ [']'] := by
  unfold stripChars
  rw [show ('[' :: xs) ++ [']'] = '[' :: (xs ++ [']']) from rfl,
      List.dropWhile_cons_of_neg (by decide),
      show ('[' :: (xs ++ [']'])).reverse = ']' :: (xs.reverse ++ ['[']) by simp,
      List.dropWhile_cons_of_neg (by decide)]
  simp

/-- Updating a day's entry list is read back by `getDay`. -/
theorem getDay_setDay (data : EnergyStore) (day : String) (es : List EnergyEntry) :
    getDay (setDay day es data) day = es := by
  induction data with
  | nil => simp [setDay, getDay, List.find?]
  | cons p rest ih =>
    cases hp : (p.1 == day) with
    | true => simp [setDay, hp, getDay, List.find?]
    | false =>
      have hs : setDay day es (p :: rest) = p :: setDay day es rest := by
        simp [setDay, hp]
      have hc : ∀ r : EnergyStore, getDay (p :: r) day = getDay r day := by
        intro r
        unfold getDay
        simp [List.find?_cons, hp]
      rw [hs, hc, ih]

/-! ## Claims -/

/-- Claim C10: with no readings logged for a day (including when the
energy store file does not exist), `get_latest_energy` returns `none`;
immediately after `log_energy` appends a reading for today, it returns
exactly that reading. -/
theorem C10_latest_energy (today : String) (store : Option EnergyStore) :
    (getDay (read_energy store) today = [] → get_latest_energy today store = none)
  ∧ (∀ time level note : String,
      get_latest_energy today (some (log_energy today time level note store))
        = some { time := time, level := level, note := note }) := by
  constructor
  · intro h
    unfold get_latest_energy
    rw [h]
    rfl
  · intro time level note
    unfold get_latest_energy log_energy
    simp only [read_energy, Option.getD_some]
    rw [getDay_setDay]
    exact List.getLast?_concat _

/-- Witness for C10 at a concrete store. -/
theorem C10_latest_energy_witness :
    get_latest_energy "2026-10-12" none = none
  ∧ get_latest_energy "2026-10-12"
      (some (log_energy "2026-10-12" "09:15" "low" "tired" none))
        = some { time := "09:15", level := "low", note := "tired" } := by
  have h := C10_latest_energy "2026-10-12" none
  exact ⟨h.1 (by decide), h.2 "09:15" "low" "tired"⟩

/-- Counterexample to claim C2 as stated: `complete_task` on a habit
appends today's date unconditionally, so completing the same habit twice
on the same day leaves the date twice in the completion set, not once. -/
theorem C2_counterexample :
    (complete_task "2026-10-12" true "h1"
      (complete_task "2026-10-12" true "h1"
        [{ id := "h1", task := "Morning meditation", category := "health",
           status := "todo", created := "2026-10-01", completed := none,
           recurring := true, completions := [] }])).map (fun t => t.completions)
      = [["2026-10-12", "2026-10-12"]]
  ∧ ¬ (["2026-10-12", "2026-10-12"].count "2026-10-12" = 1) := by
  exact ⟨rfl, by decide⟩

/-- Claim C2 (amended): habit completion is not deduplicated — each
`complete_task` call on a habit appends the day to its completion list,
so completing twice on day `d` adds `d` twice (its count grows by exactly
2); membership of `d` (what `done_today` tests) does hold afterwards. -/
theorem C2_habit_completion_appends (today : String) (pre : List Task) (t : Task)
    (post : List Task) (hpre : ∀ u ∈ pre, ¬ u.id = t.id) :
    complete_task today true t.id (complete_task today true t.id (pre ++ t :: post))
      = pre ++ { t with completions := t.completions ++ [today, today] } :: post
  ∧ (t.completions ++ [today, today]).count today = t.completions.count today + 2
  ∧ today ∈ t.completions ++ [today, today] := by
  refine ⟨?_, ?_, by simp⟩
  · rw [complete_task_rec_first today pre t post hpre]
    have h2 := complete_task_rec_first today pre
      { t with completions := t.completions ++ [today] } post hpre
    rw [h2]
    simp
  · simp [List.count_append]

/-- Witness for C2 (amended) at a concrete habit list. -/
theorem C2_habit_completion_appends_witness :
    complete_task "2026-10-12" true "h1"
      (complete_task "2026-10-12" true "h1"
        [{ id := "h1", task := "Morning meditation", category := "health",
           status := "todo", created := "2026-10-01", completed := none,
           recurring := true, completions := ["2026-10-11"] }])
      = [{ id := "h1", task := "Morning meditation", category := "health",
           status := "todo", created := "2026-10-01", completed := none,
           recurring := true,
           completions := ["2026-10-11", "2026-10-12", "2026-10-12"] }]
  ∧ (["2026-10-11"] ++ ["2026-10-12", "2026-10-12"]).count "2026-10-12"
      = (["2026-10-11"] : List String).count "2026-10-12" + 2
  ∧ "2026-10-12" ∈ ["2026-10-11"] ++ ["2026-10-12", "2026-10-12"] := by
  have h := C2_habit_completion_appends "2026-10-12" []
    { id := "h1", task := "Morning meditation", category := "health",
      status := "todo", created := "2026-10-01", completed := none,
      recurring := true, completions := ["2026-10-11"] } [] (by simp)
  exact ⟨h.1, h.2.1, h.2.2⟩

/-- Claim C3: the streak update is a calendar-day state machine — same
day is a no-op; a gap of exactly one day increments `current` and
`total_days` and refreshes `longest` as a running maximum; a gap of more
than one day resets `current` to 1 while still incrementing `total_days`;
a missing prior check-in yields `current = 1`, `total_days = 1`.  The
statement holds for every time of day `sec < 86400`, so the difference
depends on date components only, not on a 24-hour window. -/
theorem C3_update_streak (today sec : Nat) (hsec : sec < 86400) (s : Streak) :
    (s.last_checkin = some today → update_streak today sec s = s)
  ∧ (∀ last, s.last_checkin = some last → today = last + 1 →
      update_streak today sec s =
        { current := s.current + 1, longest := max s.longest (s.current + 1),
          last_checkin := some today, start_date := s.start_date,
          total_days := s.total_days + 1 })
  ∧ (∀ last, s.last_checkin = some last → last + 1 < today →
      update_streak today sec s =
        { current := 1, longest := s.longest, last_checkin := some today,
          start_date := s.start_date, total_days := s.total_days + 1 })
  ∧ (s.last_checkin = none →
      update_streak today sec s =
        { current := 1, longest := s.longest, last_checkin := some today,
          start_date := s.start_date, total_days := 1 }) := by
  have hdiff : ∀ last : Nat,
      Int.fdiv (((today : Int) * 86400 + (sec : Int)) - (last : Int) * 86400) 86400
        = (today : Int) - (last : Int) := by
    intro last
    have : ((today : Int) * 86400 + (sec : Int)) - (last : Int) * 86400
        = ((today : Int) - (last : Int)) * 86400 + (sec : Int) := by ring
    rw [this, fdiv_day _ sec hsec]
  refine ⟨?_, ?_, ?_, ?_⟩
  · intro h
    unfold update_streak
    rw [if_pos h]
  · intro last hl ht
    unfold update_streak
    rw [if_neg (by rw [hl]; simp; omega)]
    rw [hl]
    simp only [hdiff]
    rw [if_pos (by rw [ht]; push_cast; ring)]
    have hm : (if s.current + 1 > s.longest then s.current + 1 else s.longest)
        = max s.longest (s.current + 1) := by
      split <;> omega
    rw [hm]
  · intro last hl ht
    unfold update_streak
    rw [if_neg (by rw [hl]; simp; omega)]
    rw [hl]
    simp only [hdiff]
    rw [if_neg (by omega), if_pos (by omega)]
  · intro h
    unfold update_streak
    rw [if_neg (by rw [h]; simp)]
    rw [h]

/-- Witness for C3: the spec's worked example — yesterday's check-in with
current 3, longest 5, total 10 becomes current 4, longest 5, total 11 —
plus one instance of each other branch. -/
theorem C3_update_streak_witness :
    update_streak 100 3600 { current := 3, longest := 5, last_checkin := some 99,
                             start_date := 90, total_days := 10 }
      = { current := 4, longest := 5, last_checkin := some 100,
          start_date := 90, total_days := 11 }
  ∧ update_streak 100 3600 { current := 10, longest := 12, last_checkin := some 95,
                             start_date := 90, total_days := 40 }
      = { current := 1, longest := 12, last_checkin := some 100,
          start_date := 90, total_days := 41 }
  ∧ update_streak 100 3600 { current := 0, longest := 0, last_checkin := none,
                             start_date := 100, total_days := 0 }
      = { current := 1, longest := 0, last_checkin := some 100,
          start_date := 100, total_days := 1 }
  ∧ update_streak 100 3600 { current := 4, longest := 5, last_checkin := some 100,
                             start_date := 90, total_days := 11 }
      = { current := 4, longest := 5, last_checkin := some 100,
          start_date := 90, total_days := 11 } := by
  have hs : (3600 : Nat) < 86400 := by norm_num
  refine ⟨?_, ?_, ?_, ?_⟩
  · have h := (C3_update_streak 100 3600 hs
      { current := 3, longest := 5, last_checkin := some 99,
        start_date := 90, total_days := 10 }).2.1 99 rfl (by norm_num)
    rw [h]
    decide
  · have h := (C3_update_streak 100 3600 hs
      { current := 10, longest := 12, last_checkin := some 95,
        start_date := 90, total_days := 40 }).2.2.1 95 rfl (by norm_num)
    rw [h]
  · have h := (C3_update_streak 100 3600 hs
      { current := 0, longest := 0, last_checkin := none,
        start_date := 100, total_days := 0 }).2.2.2 rfl
    rw [h]
  · exact (C3_update_streak 100 3600 hs
      { current := 4, longest := 5, last_checkin := some 100,
        start_date := 90, total_days := 11 }).1 rfl

/-- Claim C4: a read of a stale weekly-goal store (stored week key
differs from the current one) with a non-empty goal list first appends
the archival summary — containing the completed and not-completed
counts — to today's journal and then replaces the store with an empty
set for the current week; a stale store with an empty goal list just
gets the new week key, with no journal entry. -/
theorem C4_weekly_rollover (currentWeek : String) (d : WeeklyData)
    (journal : List String) (hW : ¬ d.week = currentWeek) :
    (¬ d.goals = [] →
        read_weekly_goals currentWeek (some d) journal
          = ({ week := currentWeek, goals := [] },
             some { week := currentWeek, goals := [] },
             journal ++ [archive_summary d])
      ∧ isSubstr ("**Completed ("
            ++ toString (d.goals.filter (fun g => g.completed)).length ++ "):**\n")
          (archive_summary d) = true
      ∧ isSubstr ("\n**Not completed ("
            ++ toString (d.goals.filter (fun g => !g.completed)).length ++ "):**\n")
          (archive_summary d) = true)
  ∧ (d.goals = [] →
      read_weekly_goals currentWeek (some d) journal
        = ({ week := currentWeek, goals := [] },
           some { week := currentWeek, goals := [] }, journal)) := by
  constructor
  · intro hg
    refine ⟨by simp [read_weekly_goals, hW, hg, archive_weekly_goals], ?_, ?_⟩
    · unfold isSubstr
      apply isSubstrL_infix
      refine ⟨"## 📅 Week ".data ++ d.week.data ++ " Summary\n\n".data,
        (String.join ((d.goals.filter (fun g => g.completed)).map
            (fun g => "- ✅ " ++ g.goal ++ "\n"))).data
          ++ "\n**Not completed (".data
          ++ (toString (d.goals.filter (fun g => !g.completed)).length).data
          ++ "):**\n".data
          ++ (String.join ((d.goals.filter (fun g => !g.completed)).map
              (fun g => "- ❌ " ++ g.goal ++ "\n"))).data, ?_⟩
      simp [archive_summary, List.append_assoc]
    · unfold isSubstr
      apply isSubstrL_infix
      refine ⟨"## 📅 Week ".data ++ d.week.data ++ " Summary\n\n".data
          ++ "**Completed (".data
          ++ (toString (d.goals.filter (fun g => g.completed)).length).data
          ++ "):**\n".data
          ++ (String.join ((d.goals.filter (fun g => g.completed)).map
              (fun g => "- ✅ " ++ g.goal ++ "\n"))).data,
        (String.join ((d.goals.filter (fun g => !g.completed)).map
            (fun g => "- ❌ " ++ g.goal ++ "\n"))).data, ?_⟩
      simp [archive_summary, List.append_assoc]
  · intro hg
    simp [read_weekly_goals, hW, hg]

/-- Witness for C4: the spec's worked example — two completed goals and
one incomplete, tagged with last week's key — plus the empty stale
store. -/
theorem C4_weekly_rollover_witness :
    read_weekly_goals "2026-W42"
        (some { week := "2026-W41", goals :=
          [{ id := "g1", goal := "Ship weekly report", category := "work",
             completed := true, created := "2026-10-05",
             completed_date := some "2026-10-07" },
           { id := "g2", goal := "Run three times", category := "health",
             completed := true, created := "2026-10-05",
             completed_date := some "2026-10-08" },
           { id := "g3", goal := "Write blog post", category := "personal_brand",
             completed := false, created := "2026-10-05",
             completed_date := none }] }) []
      = ({ week := "2026-W42", goals := [] },
         some { week := "2026-W42", goals := [] },
         [archive_summary { week := "2026-W41", goals :=
          [{ id := "g1", goal := "Ship weekly report", category := "work",
             completed := true, created := "2026-10-05",
             completed_date := some "2026-10-07" },
           { id := "g2", goal := "Run three times", category := "health",
             completed := true, created := "2026-10-05",
             completed_date := some "2026-10-08" },
           { id := "g3", goal := "Write blog post", category := "personal_brand",
             completed := false, created := "2026-10-05",
             completed_date := none }] }])
  ∧ isSubstr "**Completed (2):**\n" (archive_summary { week := "2026-W41", goals :=
          [{ id := "g1", goal := "Ship weekly report", category := "work",
             completed := true, created := "2026-10-05",
             completed_date := some "2026-10-07" },
           { id := "g2", goal := "Run three times", category := "health",
             completed := true, created := "2026-10-05",
             completed_date := some "2026-10-08" },
           { id := "g3", goal := "Write blog post", category := "personal_brand",
             completed := false, created := "2026-10-05",
             completed_date := none }] }) = true
  ∧ isSubstr "\n**Not completed (1):**\n" (archive_summary { week := "2026-W41", goals :=
          [{ id := "g1", goal := "Ship weekly report", category := "work",
             completed := true, created := "2026-10-05",
             completed_date := some "2026-10-07" },
           { id := "g2", goal := "Run three times", category := "health",
             completed := true, created := "2026-10-05",
             completed_date := some "2026-10-08" },
           { id := "g3", goal := "Write blog post", category := "personal_brand",
             completed := false, created := "2026-10-05",
             completed_date := none }] }) = true
  ∧ read_weekly_goals "2026-W42" (some { week := "2026-W41", goals := [] }) []
      = ({ week := "2026-W42", goals := [] },
         some { week := "2026-W42", goals := [] }, []) := by
  have h := C4_weekly_rollover "2026-W42"
    { week := "2026-W41", goals :=
          [{ id := "g1", goal := "Ship weekly report", category := "work",
             completed := true, created := "2026-10-05",
             completed_date := some "2026-10-07" },
           { id := "g2", goal := "Run three times", category := "health",
             completed := true, created := "2026-10-05",
             completed_date := some "2026-10-08" },
           { id := "g3", goal := "Write blog post", category := "personal_brand",
             completed := false, created := "2026-10-05",
             completed_date := none }] } [] (by decide)
  have h2 := C4_weekly_rollover "2026-W42" { week := "2026-W41", goals := [] } []
    (by decide)
  exact ⟨(h.1 (by decide)).1, by decide, by decide, h2.2 rfl⟩

/-- When the scan found no matches, the text went through unchanged. -/
theorem scanActions_fst_of_no_matches (l : List Char)
    (h : (scanActions l).2 = []) : (scanActions l).1 = l := by
  induction l with
  | nil => rfl
  | cons c cs ih =>
    cases htm : tryMatch (c :: cs) with
    | some r =>
      obtain ⟨a, b, ct, rest⟩ := r
      rw [scanActions_cons_some htm] at h
      simp at h
    | none =>
      rw [scanActions_cons_none htm] at h ⊢
      rw [ih h]

/-- Counterexample to claim C6 as stated: text with no directive tokens
is still not returned unchanged — the final `.strip()` removes the
surrounding whitespace. -/
theorem C6_counterexample :
    (process_ai_actions "2026-W41" "2026-10-12" "09:00" "id1" "  hi  "
        { tasks := [], recurring := [], weekly := none, energy := none,
          journal := [] }).1 = "hi"
  ∧ (scanActions "  hi  ".data).2 = []
  ∧ ¬ (("hi" : String) = "  hi  ") := by
  refine ⟨rfl, rfl, by decide⟩

/-- Claim C6 (amended): for input containing no directive token, the
parser returns the text with only its leading and trailing whitespace
stripped — otherwise byte-identical — together with an empty action list,
and the stores are untouched. -/
theorem C6_no_tokens (currentWeek today time newId : String) (text : String)
    (st : AppState) (h : (scanActions text.data).2 = []) :
    process_ai_actions currentWeek today time newId text st = (pyStrip text, [], st) := by
  have h1 := scanActions_fst_of_no_matches text.data h
  simp only [process_ai_actions, h, h1]
  rfl

/-- Witness for C6 (amended) on a concrete token-free text. -/
theorem C6_no_tokens_witness :
    process_ai_actions "2026-W41" "2026-10-12" "09:00" "id1" "hello world"
        { tasks := [], recurring := [], weekly := none, energy := none, journal := [] }
      = (pyStrip "hello world", [],
         { tasks := [], recurring := [], weekly := none, energy := none,
           journal := [] }) :=
  C6_no_tokens "2026-W41" "2026-10-12" "09:00" "id1" "hello world"
    { tasks := [], recurring := [], weekly := none, energy := none, journal := [] }
    (by decide)

/-- Counterexample to claim C5 as stated: the surrounding prose is not
left byte-identical — the final `.strip()` trims the ends, so the prose
`" x "` / `" y "` around the token comes back as `"x  y"` rather than
`" x  y "`. -/
theorem C5_counterexample :
    (process_ai_actions "2026-W41" "2026-10-12" "09:00" "id1"
        " x [ACTION:TASK:work:do it] y "
        { tasks := [], recurring := [], weekly := none, energy := none,
          journal := [] }).1 = "x  y"
  ∧ (scanActions " x [ACTION:TASK:work:do it] y ".data).2
      = [("TASK", "work", "do it")]
  ∧ ¬ ((" x " ++ " y " : String) = "x  y") := by
  refine ⟨rfl, rfl, by decide⟩

/-- Claim C5 (amended): prose containing exactly one well-formed
directive token parses to exactly one action carrying the token's three
fields, and the display text is the prose with exactly the token's span
removed and then — this is the one deviation from the claim as written —
leading and trailing whitespace stripped; the interior of the prose is
byte-identical. -/
theorem C5_roundtrip (currentWeek today time newId : String) (st : AppState)
    (pre post w1 w2 ct : List Char)
    (hpre : ∀ c ∈ pre, ¬ c = '[') (hpost : ∀ c ∈ post, ¬ c = '[')
    (hw1 : w1 ≠ []) (hw1w : ∀ c ∈ w1, isWordChar c = true)
    (hw2 : w2 ≠ []) (hw2w : ∀ c ∈ w2, isWordChar c = true)
    (hct : ct ≠ []) (hctw : ∀ c ∈ ct, ¬ c = ']') :
    (scanActions (pre ++ (tokenChars w1 w2 ct ++ post))).2
        = [(String.mk w1, String.mk w2, String.mk ct)]
  ∧ (process_ai_actions currentWeek today time newId
        (String.mk (pre ++ (tokenChars w1 w2 ct ++ post))) st).1
      = String.mk (stripChars (pre ++ post)) := by
  have h := scanActions_embedded pre w1 w2 ct post hpre hpost hw1 hw1w hw2 hw2w hct hctw
  constructor
  · rw [h]
  · simp only [process_ai_actions]
    rw [h]

/-- Witness for C5 (amended) on a concrete embedded token. -/
theorem C5_roundtrip_witness :
    (scanActions (" plan: ".data
        ++ (tokenChars "TASK".data "work".data "Finish the report".data
            ++ " ok".data))).2
      = [(String.mk "TASK".data, String.mk "work".data,
          String.mk "Finish the report".data)]
  ∧ (process_ai_actions "2026-W41" "2026-10-12" "09:00" "id1"
        (String.mk (" plan: ".data
          ++ (tokenChars "TASK".data "work".data "Finish the report".data
              ++ " ok".data)))
        { tasks := [], recurring := [], weekly := none, energy := none,
          journal := [] }).1
      = String.mk (stripChars (" plan: ".data ++ " ok".data)) :=
  C5_roundtrip "2026-W41" "2026-10-12" "09:00" "id1"
    { tasks := [], recurring := [], weekly := none, energy := none, journal := [] }
    " plan: ".data " ok".data "TASK".data "work".data "Finish the report".data
    (by decide) (by decide) (by decide) (by decide) (by decide) (by decide)
    (by decide) (by decide)

/-- A word character is never `[`. -/
theorem word_ne_lbracket {c : Char} (h : isWordChar c = true) : ¬ c = '[' := by
  intro he
  rw [he] at h
  exact absurd h (by decide)

/-- A token whose last colon-separated field is missing — the shape
`[ACTION:w1:w2]` — never matches, whatever follows it. -/
theorem tryMatch_malformed (w1 w2 rest : List Char)
    (hw1 : w1 ≠ []) (hw1w : ∀ c ∈ w1, isWordChar c = true)
    (hw2w : ∀ c ∈ w2, isWordChar c = true) :
    tryMatch (actionHeader ++ (w1 ++ ':' :: (w2 ++ ']' :: rest))) = none := by
  have hw : isWordChar ':' = false := by decide
  have hb : isWordChar ']' = false := by decide
  have hw1e : w1.isEmpty = false := by
    cases w1 with
    | nil => exact absurd rfl hw1
    | cons c cs => rfl
  have hpre : actionHeader.isPrefixOf
      (actionHeader ++ (w1 ++ ':' :: (w2 ++ ']' :: rest))) = true := by
    rw [List.isPrefixOf_iff_prefix]
    exact List.prefix_append _ _
  unfold tryMatch
  rw [if_pos hpre, List.drop_left' (by decide : actionHeader.length = 8),
      dropWhile_factor isWordChar w1 ':' _ hw1w hw,
      takeWhile_factor isWordChar w1 ':' _ hw1w hw]
  simp only [hw1e]
  rw [if_neg (by simp)]
  rw [dropWhile_factor isWordChar w2 ']' _ hw2w hb]
  rfl

/-- A word character is never `]`. -/
theorem word_ne_rbracket {c : Char} (h : isWordChar c = true) : ¬ c = ']' := by
  intro he
  rw [he] at h
  exact absurd h (by decide)

/-- A match needs a closing bracket: on input containing no `]` the
regex never matches. -/
theorem tryMatch_no_rbracket (l : List Char) (h : ∀ c ∈ l, ¬ c = ']') :
    tryMatch l = none := by
  cases htm : tryMatch l with
  | none => rfl
  | some r =>
    obtain ⟨a, b, c0, rest⟩ := r
    exfalso
    unfold tryMatch at htm
    split at htm
    case isFalse => simp at htm
    case isTrue hpre =>
      split at htm
      case h_2 => simp at htm
      case h_1 r3 heq1 =>
        split at htm
        case isTrue => simp at htm
        case isFalse =>
          split at htm
          case h_2 => simp at htm
          case h_1 r5 heq2 =>
            split at htm
            case isTrue => simp at htm
            case isFalse =>
              split at htm
              case h_2 => simp at htm
              case h_1 rest' heq3 =>
                have h1 : (']' : Char) ∈ List.dropWhile (fun c => c != ']') r5 := by
                  rw [heq3]
                  exact List.mem_cons_self _ _
                have h2 : (']' : Char) ∈ r5 :=
                  (List.dropWhile_sublist _).subset h1
                have h3 : (']' : Char) ∈ r3 := by
                  have hm : (']' : Char) ∈ ':' :: r5 := List.mem_cons_of_mem _ h2
                  rw [← heq2] at hm
                  exact (List.dropWhile_sublist _).subset hm
                have h4 : (']' : Char) ∈ List.drop 8 l := by
                  have hm : (']' : Char) ∈ ':' :: r3 := List.mem_cons_of_mem _ h3
                  rw [← heq1] at hm
                  exact (List.dropWhile_sublist _).subset hm
                have h5 : (']' : Char) ∈ l := (List.drop_sublist 8 l).subset h4
                exact (h _ h5) rfl

/-- Text without `]` scans to itself with no matches: an unterminated
token is never matched, wherever it sits in such text. -/
theorem scanActions_no_rb (l : List Char) (h : ∀ c ∈ l, ¬ c = ']') :
    scanActions l = (l, []) := by
  induction l with
  | nil => rfl
  | cons c cs ih =>
    rw [scanActions_cons_none (tryMatch_no_rbracket (c :: cs) h),
        ih (fun d hd => h d (by simp [hd]))]

/-- Counterexample to claim C7 as stated: the display text length is not
unchanged for every input containing a malformed token — valid
directives elsewhere in the same text are still removed (and trailing
whitespace trimmed), so the length shrinks. -/
theorem C7_counterexample :
    (process_ai_actions "2026-W41" "2026-10-12" "09:00" "id1"
        "[ACTION:TASK:onlyonefield] [ACTION:TASK:work:x]"
        { tasks := [], recurring := [], weekly := none, energy := none,
          journal := [] }).1
      = "[ACTION:TASK:onlyonefield]"
  ∧ ¬ (("[ACTION:TASK:onlyonefield]" : String).length
        = ("[ACTION:TASK:onlyonefield] [ACTION:TASK:work:x]" : String).length) := by
  refine ⟨rfl, by decide⟩

/-- Claim C7 (amended): a malformed token is matched by neither the
grammar nor removed, for both malformed shapes.  A token missing a field
(`[ACTION:w1:w2]`) on its own scans to itself with no actions and passes
through `process_ai_actions` entirely unchanged (length conserved), and
it does not prevent a valid directive in the same text from being parsed
and executed, though the removal of the valid token (and end-trimming)
can change the overall display length.  A token with an unterminated
bracket (`[ACTION:w1:w2:ct` with no `]` in its fields and none following
it) is likewise never matched: preceded by arbitrary bracket-free prose
it scans to itself with no actions, and the processed display is the
whole text with only its end whitespace trimmed; a valid directive
occurring before it still parses while it stays verbatim.  When a `]`
does occur later in the text the token is not actually unterminated: the
grammar matches a single larger token whose content absorbs the
intervening text up to that bracket. -/
theorem C7_malformed_conserved (currentWeek today time newId : String) (st : AppState)
    (w1 w2 pre ct : List Char)
    (hw1 : w1 ≠ []) (hw1w : ∀ c ∈ w1, isWordChar c = true)
    (hw2w : ∀ c ∈ w2, isWordChar c = true)
    (hpre : ∀ c ∈ pre, ¬ c = '[') (hctnr : ∀ c ∈ ct, ¬ c = ']') :
    scanActions (malformedChars w1 w2) = (malformedChars w1 w2, [])
  ∧ process_ai_actions currentWeek today time newId
        (String.mk (malformedChars w1 w2)) st
      = (String.mk (malformedChars w1 w2), [], st)
  ∧ (process_ai_actions "2026-W41" "2026-10-12" "09:00" "id1"
        "[ACTION:TASK:onlyonefield] and [ACTION:TASK:work:x]"
        { tasks := [], recurring := [], weekly := none, energy := none,
          journal := [] }).2.1
      = ["📋 Added task: x"]
  ∧ (process_ai_actions "2026-W41" "2026-10-12" "09:00" "id1"
        "[ACTION:TASK:onlyonefield] and [ACTION:TASK:work:x]"
        { tasks := [], recurring := [], weekly := none, energy := none,
          journal := [] }).1
      = "[ACTION:TASK:onlyonefield] and"
  ∧ scanActions (pre ++ unterminatedChars w1 w2 ct)
      = (pre ++ unterminatedChars w1 w2 ct, [])
  ∧ process_ai_actions currentWeek today time newId
        (String.mk (pre ++ unterminatedChars w1 w2 ct)) st
      = (String.mk (stripChars (pre ++ unterminatedChars w1 w2 ct)), [], st)
  ∧ (process_ai_actions "2026-W41" "2026-10-12" "09:00" "id1"
        "[ACTION:GOAL:health:x] [ACTION:TASK:work:stuff"
        { tasks := [], recurring := [], weekly := none, energy := none,
          journal := [] }).1
      = "[ACTION:TASK:work:stuff"
  ∧ (process_ai_actions "2026-W41" "2026-10-12" "09:00" "id1"
        "[ACTION:GOAL:health:x] [ACTION:TASK:work:stuff"
        { tasks := [], recurring := [], weekly := none, energy := none,
          journal := [] }).2.1
      = ["🎯 Added weekly goal: x"]
  ∧ (scanActions "[ACTION:TASK:work:stuff [ACTION:GOAL:health:x]".data).2
      = [("TASK", "work", "stuff [ACTION:GOAL:health:x")] := by
  have hhd : actionHeader = '[' :: "ACTION:".data := by decide
  have hshape : malformedChars w1 w2
      = actionHeader ++ (w1 ++ ':' :: (w2 ++ ']' :: ([] : List Char))) := by
    simp [malformedChars]
  have htm : tryMatch (malformedChars w1 w2) = none := by
    rw [hshape]
    exact tryMatch_malformed w1 w2 [] hw1 hw1w hw2w
  have hcons : malformedChars w1 w2
      = '[' :: ("ACTION:".data ++ (w1 ++ ':' :: (w2 ++ ']' :: ([] : List Char)))) := by
    rw [hshape, hhd]
    simp
  have hnb : ∀ c ∈ ("ACTION:".data ++ (w1 ++ ':' :: (w2 ++ ']' :: ([] : List Char)))),
      ¬ c = '[' := by
    intro c hc
    rcases List.mem_append.mp hc with h | h
    · have hA : ∀ x ∈ "ACTION:".data, ¬ x = '[' := by decide
      exact hA c h
    · rcases List.mem_append.mp h with h2 | h2
      · exact word_ne_lbracket (hw1w c h2)
      · rcases List.mem_cons.mp h2 with h3 | h3
        · rw [h3]; decide
        · rcases List.mem_append.mp h3 with h4 | h4
          · exact word_ne_lbracket (hw2w c h4)
          · rcases List.mem_cons.mp h4 with h5 | h5
            · rw [h5]; decide
            · exact absurd h5 (List.not_mem_nil c)
  have hscan : scanActions (malformedChars w1 w2) = (malformedChars w1 w2, []) := by
    rw [hcons] at htm
    rw [hcons, scanActions_cons_none htm, scanActions_no_lb _ hnb]
  have hstrip : stripChars (malformedChars w1 w2) = malformedChars w1 w2 := by
    have hx : malformedChars w1 w2
        = '[' :: ("ACTION:".data ++ w1 ++ [':'] ++ w2) ++ [']'] := by
      rw [show malformedChars w1 w2 = actionHeader ++ w1 ++ [':'] ++ w2 ++ [']'] from rfl,
          hhd]
      simp
    rw [hx, stripChars_bracketed]
  have hnr : ∀ c ∈ unterminatedChars w1 w2 ct, ¬ c = ']' := by
    intro c hc
    simp only [unterminatedChars] at hc
    rcases List.mem_append.mp hc with h | h
    · rcases List.mem_append.mp h with h2 | h2
      · rcases List.mem_append.mp h2 with h3 | h3
        · rcases List.mem_append.mp h3 with h4 | h4
          · rcases List.mem_append.mp h4 with h5 | h5
            · have hA : ∀ x ∈ actionHeader, ¬ x = ']' := by decide
              exact hA c h5
            · exact word_ne_rbracket (hw1w c h5)
          · rcases List.mem_cons.mp h4 with h5 | h5
            · rw [h5]; decide
            · exact absurd h5 (List.not_mem_nil c)
        · exact word_ne_rbracket (hw2w c h3)
      · rcases List.mem_cons.mp h2 with h3 | h3
        · rw [h3]; decide
        · exact absurd h3 (List.not_mem_nil c)
    · exact hctnr c h
  have hscanU : scanActions (pre ++ unterminatedChars w1 w2 ct)
      = (pre ++ unterminatedChars w1 w2 ct, []) := by
    rw [scanActions_append_no_lb pre _ hpre, scanActions_no_rb _ hnr]
  refine ⟨hscan, ?_, ?_, ?_, hscanU, ?_, ?_, ?_, ?_⟩
  · simp only [process_ai_actions, hscan, execActions]
    rw [hstrip]
  · decide
  · decide
  · simp only [process_ai_actions, hscanU, execActions]
  · decide
  · decide
  · decide

/-- Witness for C7 (amended): the spec's own malformed example
`[ACTION:TASK:onlyonefield]`, and the unterminated token
`[ACTION:TASK:work:stuff` preceded by prose. -/
theorem C7_malformed_conserved_witness :
    scanActions (malformedChars "TASK".data "onlyonefield".data)
      = (malformedChars "TASK".data "onlyonefield".data, [])
  ∧ process_ai_actions "2026-W41" "2026-10-12" "09:00" "id1"
        (String.mk (malformedChars "TASK".data "onlyonefield".data))
        { tasks := [], recurring := [], weekly := none, energy := none, journal := [] }
      = (String.mk (malformedChars "TASK".data "onlyonefield".data), [],
         { tasks := [], recurring := [], weekly := none, energy := none,
           journal := [] })
  ∧ scanActions ("a ".data ++ unterminatedChars "TASK".data "work".data "stuff".data)
      = ("a ".data ++ unterminatedChars "TASK".data "work".data "stuff".data, [])
  ∧ process_ai_actions "2026-W41" "2026-10-12" "09:00" "id1"
        (String.mk ("a ".data
          ++ unterminatedChars "TASK".data "work".data "stuff".data))
        { tasks := [], recurring := [], weekly := none, energy := none, journal := [] }
      = (String.mk (stripChars ("a ".data
           ++ unterminatedChars "TASK".data "work".data "stuff".data)), [],
         { tasks := [], recurring := [], weekly := none, energy := none,
           journal := [] }) := by
  have h1 := C7_malformed_conserved "2026-W41" "2026-10-12" "09:00" "id1"
    { tasks := [], recurring := [], weekly := none, energy := none, journal := [] }
    "TASK".data "onlyonefield".data "a ".data "stuff".data
    (by decide) (by decide) (by decide) (by decide) (by decide)
  have h2 := C7_malformed_conserved "2026-W41" "2026-10-12" "09:00" "id1"
    { tasks := [], recurring := [], weekly := none, energy := none, journal := [] }
    "TASK".data "work".data "a ".data "stuff".data
    (by decide) (by decide) (by decide) (by decide) (by decide)
  exact ⟨h1.1, h1.2.1, h2.2.2.2.2.1, h2.2.2.2.2.2.1⟩

/-- Counterexample to claim C1 as stated: with no open task matching
"chassis" but an incomplete weekly goal whose text contains it, the
COMPLETE action does not mark the goal completed and produces no
confirmation — the weekly-goal fallback does not exist in the code. -/
theorem C1_counterexample :
    (∀ t ∈ [({ id := "t1", task := "Write alpha notes", category := "work",
               status := "todo", created := "2026-10-10", completed := none,
               recurring := false, completions := [] } : Task)],
        openMatch (lower (pyStrip "chassis")) t = false)
  ∧ isSubstr (lower "chassis") (lower "Fix chassis mounts") = true
  ∧ execAction "2026-W41" "2026-10-12" "09:00" "id1" ("COMPLETE", "task", "chassis")
      { tasks := [{ id := "t1", task := "Write alpha notes", category := "work",
                    status := "todo", created := "2026-10-10", completed := none,
                    recurring := false, completions := [] }],
        recurring := [],
        weekly := some { week := "2026-W41", goals :=
          [{ id := "g1", goal := "Fix chassis mounts", category := "work",
             completed := false, created := "2026-10-10",
             completed_date := none }] },
        energy := none, journal := [] }
    = ({ tasks := [{ id := "t1", task := "Write alpha notes", category := "work",
                     status := "todo", created := "2026-10-10", completed := none,
                     recurring := false, completions := [] }],
         recurring := [],
         weekly := some { week := "2026-W41", goals :=
           [{ id := "g1", goal := "Fix chassis mounts", category := "work",
              completed := false, created := "2026-10-10",
              completed_date := none }] },
         energy := none, journal := [] }, none) := by
  refine ⟨by decide, by decide, by decide⟩

/-- Claim C1 (amended): the COMPLETE action dispatches to
`complete_task_by_name`, which searches only the one-off task store;
the first open task whose text contains the (stripped) content as a
case-insensitive substring is marked done with today's date and its text
is returned in the confirmation; when no open task matches, nothing at
all changes — the weekly-goal store is never consulted, no store is
modified and no confirmation is produced. -/
theorem C1_complete_by_name (currentWeek today time newId cat content : String)
    (st : AppState) :
    execAction currentWeek today time newId ("COMPLETE", cat, content) st
      = ({ st with tasks := (complete_task_by_name today st.tasks (pyStrip content)).1 },
         Option.map (fun n => "✅ Completed: " ++ n)
           (complete_task_by_name today st.tasks (pyStrip content)).2)
  ∧ ((∀ t ∈ st.tasks, openMatch (lower (pyStrip content)) t = false) →
       execAction currentWeek today time newId ("COMPLETE", cat, content) st
         = (st, none))
  ∧ (∀ pre t post, st.tasks = pre ++ t :: post →
       (∀ u ∈ pre, openMatch (lower (pyStrip content)) u = false) →
       openMatch (lower (pyStrip content)) t = true →
       execAction currentWeek today time newId ("COMPLETE", cat, content) st
         = ({ st with tasks :=
              pre ++ { t with status := "done", completed := some today } :: post },
            some ("✅ Completed: " ++ t.task))) := by
  have hty : upper "COMPLETE" = "COMPLETE" := by decide
  have hmain : execAction currentWeek today time newId ("COMPLETE", cat, content) st
      = ({ st with tasks := (complete_task_by_name today st.tasks (pyStrip content)).1 },
         Option.map (fun n => "✅ Completed: " ++ n)
           (complete_task_by_name today st.tasks (pyStrip content)).2) := by
    simp only [execAction, hty, if_true]
    cases hp : (complete_task_by_name today st.tasks (pyStrip content)).2 <;>
      simp [hp]
  refine ⟨hmain, ?_, ?_⟩
  · intro hno
    rw [hmain]
    unfold complete_task_by_name
    rw [complete_by_name_go_no_match today (lower (pyStrip content)) st.tasks hno]
    cases st with
    | mk tasks recurring weekly energy journal => rfl
  · intro pre t post hts hp ht
    rw [hmain]
    unfold complete_task_by_name
    rw [hts, complete_by_name_go_first today (lower (pyStrip content)) pre t post hp ht]
    rfl

/-- Witness for C1 (amended): a no-match state and a matching state. -/
theorem C1_complete_by_name_witness :
    execAction "2026-W41" "2026-10-12" "09:00" "id1" ("COMPLETE", "task", "chassis")
        { tasks := [{ id := "t1", task := "Write alpha notes", category := "work",
                      status := "todo", created := "2026-10-10", completed := none,
                      recurring := false, completions := [] }],
          recurring := [], weekly := none, energy := none, journal := [] }
      = ({ tasks := [{ id := "t1", task := "Write alpha notes", category := "work",
                       status := "todo", created := "2026-10-10", completed := none,
                       recurring := false, completions := [] }],
           recurring := [], weekly := none, energy := none, journal := [] }, none)
  ∧ execAction "2026-W41" "2026-10-12" "09:00" "id1" ("COMPLETE", "task", "chassis")
        { tasks := [{ id := "t1", task := "Finish Chassis validation", category := "work",
                      status := "todo", created := "2026-10-10", completed := none,
                      recurring := false, completions := [] }],
          recurring := [], weekly := none, energy := none, journal := [] }
      = ({ tasks := [{ id := "t1", task := "Finish Chassis validation", category := "work",
                       status := "done", created := "2026-10-10",
                       completed := some "2026-10-12",
                       recurring := false, completions := [] }],
           recurring := [], weekly := none, energy := none, journal := [] },
         some ("✅ Completed: " ++ "Finish Chassis validation")) := by
  have h1 := (C1_complete_by_name "2026-W41" "2026-10-12" "09:00" "id1" "task" "chassis"
    { tasks := [{ id := "t1", task := "Write alpha notes", category := "work",
                  status := "todo", created := "2026-10-10", completed := none,
                  recurring := false, completions := [] }],
      recurring := [], weekly := none, energy := none, journal := [] }).2.1 (by decide)
  have h2 := (C1_complete_by_name "2026-W41" "2026-10-12" "09:00" "id1" "task" "chassis"
    { tasks := [{ id := "t1", task := "Finish Chassis validation", category := "work",
                  status := "todo", created := "2026-10-10", completed := none,
                  recurring := false, completions := [] }],
      recurring := [], weekly := none, energy := none, journal := [] }).2.2
    [] { id := "t1", task := "Finish Chassis validation", category := "work",
         status := "todo", created := "2026-10-10", completed := none,
         recurring := false, completions := [] } [] rfl (by simp) (by decide)
  exact ⟨h1, h2⟩

/-- Counterexample to claim C8 as stated: on a failing model call the
turn still mutates a store — the weekly-goal read performed while the
prompt is assembled rolls a stale week over (rewriting the weekly store
and appending the archive to the journal) before the failure is caught. -/
theorem C8_counterexample :
    (get_ai_response true (ModelCall.err "boom") "2026-W42" "2026-10-12" "09:00" "id1"
        { tasks := [], recurring := [],
          weekly := some { week := "2026-W41", goals :=
            [{ id := "g1", goal := "Fix chassis mounts", category := "work",
               completed := false, created := "2026-10-05",
               completed_date := none }] },
          energy := none, journal := [] }).1 = "⚠️ Error: " ++ "boom"
  ∧ (get_ai_response true (ModelCall.err "boom") "2026-W42" "2026-10-12" "09:00" "id1"
        { tasks := [], recurring := [],
          weekly := some { week := "2026-W41", goals :=
            [{ id := "g1", goal := "Fix chassis mounts", category := "work",
               completed := false, created := "2026-10-05",
               completed_date := none }] },
          energy := none, journal := [] }).2.1 = []
  ∧ (get_ai_response true (ModelCall.err "boom") "2026-W42" "2026-10-12" "09:00" "id1"
        { tasks := [], recurring := [],
          weekly := some { week := "2026-W41", goals :=
            [{ id := "g1", goal := "Fix chassis mounts", category := "work",
               completed := false, created := "2026-10-05",
               completed_date := none }] },
          energy := none, journal := [] }).2.2.weekly
      = some { week := "2026-W42", goals := [] }
  ∧ ¬ ((get_ai_response true (ModelCall.err "boom") "2026-W42" "2026-10-12" "09:00" "id1"
        { tasks := [], recurring := [],
          weekly := some { week := "2026-W41", goals :=
            [{ id := "g1", goal := "Fix chassis mounts", category := "work",
               completed := false, created := "2026-10-05",
               completed_date := none }] },
          energy := none, journal := [] }).2.2
      = { tasks := [], recurring := [],
          weekly := some { week := "2026-W41", goals :=
            [{ id := "g1", goal := "Fix chassis mounts", category := "work",
               completed := false, created := "2026-10-05",
               completed_date := none }] },
          energy := none, journal := [] }) := by
  refine ⟨rfl, rfl, rfl, by decide⟩

/-- Claim C8 (amended): with no credential the turn returns the fixed
warning, an empty action list, and leaves every store untouched; on a
failing model call the turn returns a warning carrying the failure
detail and an empty action list, and no action is executed — the tasks,
habits and energy stores are unchanged, and the only possible mutation is
the weekly-goal rollover (with its journal archive) performed by the
read-path while the prompt was being assembled; if the weekly store was
already on the current week, nothing at all changes. -/
theorem C8_failure_no_actions (call : ModelCall)
    (currentWeek today time newId : String) (st : AppState) :
    get_ai_response false call currentWeek today time newId st
      = ("⚠️ No API key set. Add OPENAI_API_KEY to your .env file.", [], st)
  ∧ (∀ e, call = ModelCall.err e →
      get_ai_response true call currentWeek today time newId st
        = ("⚠️ Error: " ++ e, [],
           { st with weekly := (read_weekly_goals currentWeek st.weekly st.journal).2.1,
                     journal := (read_weekly_goals currentWeek st.weekly st.journal).2.2 })
      ∧ (get_ai_response true call currentWeek today time newId st).2.2.tasks = st.tasks
      ∧ (get_ai_response true call currentWeek today time newId st).2.2.recurring
          = st.recurring
      ∧ (get_ai_response true call currentWeek today time newId st).2.2.energy = st.energy
      ∧ (∀ gs, st.weekly = some { week := currentWeek, goals := gs } →
          get_ai_response true call currentWeek today time newId st
            = ("⚠️ Error: " ++ e, [], st))) := by
  constructor
  · simp [get_ai_response]
  · intro e he
    subst he
    have hmain : get_ai_response true (ModelCall.err e) currentWeek today time newId st
        = ("⚠️ Error: " ++ e, [],
           { st with weekly := (read_weekly_goals currentWeek st.weekly st.journal).2.1,
                     journal := (read_weekly_goals currentWeek st.weekly st.journal).2.2 }) := by
      simp [get_ai_response]
    refine ⟨hmain, by rw [hmain], by rw [hmain], by rw [hmain], ?_⟩
    intro gs hw
    rw [hmain, hw]
    have hread : read_weekly_goals currentWeek
        (some { week := currentWeek, goals := gs }) st.journal
        = ({ week := currentWeek, goals := gs },
           some { week := currentWeek, goals := gs }, st.journal) := by
      simp [read_weekly_goals]
    rw [hread]
    rw [← hw]

/-- Witness for C8 (amended) at a concrete failing turn. -/
theorem C8_failure_no_actions_witness :
    get_ai_response false (ModelCall.err "boom") "2026-W41" "2026-10-12" "09:00" "id1"
        { tasks := [], recurring := [], weekly := none, energy := none, journal := [] }
      = ("⚠️ No API key set. Add OPENAI_API_KEY to your .env file.", [],
         { tasks := [], recurring := [], weekly := none, energy := none, journal := [] })
  ∧ get_ai_response true (ModelCall.err "boom") "2026-W41" "2026-10-12" "09:00" "id1"
        { tasks := [], recurring := [],
          weekly := some { week := "2026-W41", goals := [] },
          energy := none, journal := [] }
      = ("⚠️ Error: " ++ "boom", [],
         { tasks := [], recurring := [],
           weekly := some { week := "2026-W41", goals := [] },
           energy := none, journal := [] }) := by
  have h1 := (C8_failure_no_actions (ModelCall.err "boom") "2026-W41" "2026-10-12"
    "09:00" "id1"
    { tasks := [], recurring := [], weekly := none, energy := none, journal := [] }).1
  have h2 := ((C8_failure_no_actions (ModelCall.err "boom") "2026-W41" "2026-10-12"
    "09:00" "id1"
    { tasks := [], recurring := [],
      weekly := some { week := "2026-W41", goals := [] },
      energy := none, journal := [] }).2 "boom" rfl).2.2.2.2 [] rfl
  exact ⟨h1, h2⟩

/-- Claim C9: for one-off tasks the only status transition any engine
operation performs is todo→done and done is terminal: position for
position, `complete_task` keeps done tasks done and moves todo tasks at
most to done; `complete_task_by_name` never touches a done task at all
(it is returned bit-identical); `delete_task` only removes records; and
`add_task` only appends a fresh todo record. -/
theorem C9_done_terminal (today newId taskText cat taskId taskName : String)
    (ts recurring : List Task) :
    List.Forall₂ (fun a b => (a.status = "done" → b.status = "done")
        ∧ (a.status = "todo" → b.status = "todo" ∨ b.status = "done"))
      ts (complete_task today false taskId ts)
  ∧ List.Forall₂ (fun a b => (a.status = "done" → b = a)
        ∧ (a.status = "todo" → b.status = "todo" ∨ b.status = "done"))
      ts (complete_task_by_name today ts taskName).1
  ∧ (∀ t ∈ delete_task taskId ts, t ∈ ts)
  ∧ (add_task newId taskText cat today false ts recurring).1
      = ts ++ [{ id := newId, task := taskText, category := cat, status := "todo",
                 created := today, completed := none, recurring := false,
                 completions := [] }] := by
  refine ⟨?_, ?_, ?_, by simp [add_task]⟩
  · induction ts with
    | nil => exact List.Forall₂.nil
    | cons t rest ih =>
      by_cases h : t.id = taskId
      · simp only [complete_task, if_pos h]
        exact List.Forall₂.cons ⟨fun _ => rfl, fun _ => Or.inr rfl⟩
          (List.forall₂_same.mpr (fun x _ => ⟨fun hx => hx, fun hx => Or.inl hx⟩))
      · simp only [complete_task, if_neg h]
        exact List.Forall₂.cons ⟨fun hx => hx, fun hx => Or.inl hx⟩ ih
  · unfold complete_task_by_name
    induction ts with
    | nil => exact List.Forall₂.nil
    | cons t rest ih =>
      by_cases hm : openMatch (lower taskName) t
      · have htodo : t.status = "todo" := by
          have := (Bool.and_eq_true _ _).mp hm
          exact eq_of_beq this.1
        simp only [complete_by_name_go, if_pos hm]
        refine List.Forall₂.cons ⟨?_, fun _ => Or.inr rfl⟩
          (List.forall₂_same.mpr (fun x _ => ⟨fun hx => rfl, fun hx => Or.inl hx⟩))
        · intro hd
          rw [hd] at htodo
          exact absurd htodo (by decide)
      · simp only [complete_by_name_go, if_neg hm]
        exact List.Forall₂.cons ⟨fun hx => rfl, fun hx => Or.inl hx⟩ ih
  · intro t ht
    exact List.mem_of_mem_filter ht

/-- Witness for C9 at a concrete task list containing a done and a todo
task. -/
theorem C9_done_terminal_witness :
    List.Forall₂ (fun a b => (a.status = "done" → b.status = "done")
        ∧ (a.status = "todo" → b.status = "todo" ∨ b.status = "done"))
      [({ id := "t1", task := "Old report", category := "work", status := "done",
          created := "2026-10-01", completed := some "2026-10-02",
          recurring := false, completions := [] } : Task),
       { id := "t2", task := "New report", category := "work", status := "todo",
         created := "2026-10-03", completed := none, recurring := false,
         completions := [] }]
      (complete_task "2026-10-12" false "t2"
        [{ id := "t1", task := "Old report", category := "work", status := "done",
           created := "2026-10-01", completed := some "2026-10-02",
           recurring := false, completions := [] },
         { id := "t2", task := "New report", category := "work", status := "todo",
           created := "2026-10-03", completed := none, recurring := false,
           completions := [] }])
  ∧ List.Forall₂ (fun a b => (a.status = "done" → b = a)
        ∧ (a.status = "todo" → b.status = "todo" ∨ b.status = "done"))
      [({ id := "t1", task := "Old report", category := "work", status := "done",
          created := "2026-10-01", completed := some "2026-10-02",
          recurring := false, completions := [] } : Task),
       { id := "t2", task := "New report", category := "work", status := "todo",
         created := "2026-10-03", completed := none, recurring := false,
         completions := [] }]
      (complete_task_by_name "2026-10-12"
        [{ id := "t1", task := "Old report", category := "work", status := "done",
           created := "2026-10-01", completed := some "2026-10-02",
           recurring := false, completions := [] },
         { id := "t2", task := "New report", category := "work", status := "todo",
           created := "2026-10-03", completed := none, recurring := false,
           completions := [] }] "report").1 := by
  have h := C9_done_terminal "2026-10-12" "id9" "x" "work" "t2" "report"
    [{ id := "t1", task := "Old report", category := "work", status := "done",
       created := "2026-10-01", completed := some "2026-10-02",
       recurring := false, completions := [] },
     { id := "t2", task := "New report", category := "work", status := "todo",
       created := "2026-10-03", completed := none, recurring := false,
       completions := [] }] []
  exact ⟨h.1, h.2.1⟩

end PersonalAssistant
